import Mathlib

/-!
Shallow embedding of the esp-at AT-command driver core (`src/lib.rs`,
`src/serial.rs`, `src/state.rs`).

The driver owns a receive half and a transmit half of a byte transport with
`nb`-style non-blocking semantics: every single-byte read or write either
succeeds, signals would-block, or fails with a transport error.  We model the
receive half as a queue of `RxItem`s (the byte, would-block, or fatal outcome
each successive `read()` call produces) and the transmit half as a queue of
`TxItem`s (the outcome each successive `write(b)` call produces, an exhausted
queue meaning the transport accepts everything); bytes successfully written
are logged in `written`.  Machine strings are byte lists (`heapless` buffers
hold raw bytes until UTF-8 validation).
-/

namespace EspAt

/-- Rust's `Result<T, E>`. -/
inductive RustResult (α ε : Type) where
  | ok (a : α)
  | err (e : ε)
  deriving DecidableEq

/-- Model of `nb::Error<E>`: either `WouldBlock` or a fatal `Other` error. -/
inductive NbError (ε : Type) where
  | wouldBlock
  | other (e : ε)
  deriving DecidableEq

/-- `CommandSet` from `src/lib.rs` (the capability bit-set's members). -/
inductive CommandSet where
  | Wifi
  | TcpIp
  | Ble
  | ParticleArgonExt
  deriving DecidableEq

/-- Model of `core::str::Utf8Error`: the index up to which the input was
valid (`valid_up_to`). -/
structure Utf8Error where
  validUpTo : Nat
  deriving DecidableEq

/-- The error taxonomy `Error<RXE, TXE>` from `src/lib.rs`. -/
inductive Error (ρ τ : Type) where
  | CommandSetNotSupported (commandSet : CommandSet)
  | UnexpectedResponse
  | BufferOverflow
  | UartRead (cause : ρ)
  | UartWrite (cause : τ)
  | Utf8 (cause : Utf8Error)
  deriving DecidableEq

/-- Outcome of one `rx.read()` call: a byte, would-block, or a fatal
transport error. -/
inductive RxItem (ρ : Type) where
  | byte (b : Nat)
  | wouldBlock
  | fatal (e : ρ)
  deriving DecidableEq

/-- Outcome of one `tx.write(b)` call: accepted, would-block, or a fatal
transport error. -/
inductive TxItem (τ : Type) where
  | accept
  | wouldBlock
  | fatal (e : τ)
  deriving DecidableEq

/-- The mutable state of an `Esp32At<RX, TX>` driver instance: the pending
outcomes of its two transport halves, plus the log of bytes successfully
written so far.  (The immutable `command_sets` field is never consulted by
the implemented commands, so it is omitted from the state.) -/
structure EspState (ρ τ : Type) where
  rx : List (RxItem ρ)
  tx : List (TxItem τ)
  written : List Nat
  deriving DecidableEq

/-- `state::ModuleRevision`: three `heapless::String<U64>` fields, modelled
as the byte lists they hold. -/
structure ModuleRevision where
  at_version : List Nat
  sdk_version : List Nat
  compile_time : List Nat
  deriving DecidableEq

/-- The result of running one driver method: an `nb::Result` value paired
with the state after the call (consumed transport outcomes, grown write
log). -/
abbrev Step (ρ τ α : Type) := RustResult α (NbError (Error ρ τ)) × EspState ρ τ

variable {ρ τ : Type}

/-- `Esp32At::getc`: one `rx.read()`, wrapping a fatal cause in
`Error::UartRead` and passing would-block through. -/
def getc (s : EspState ρ τ) : Step ρ τ Nat :=
  match s.rx with
  | [] => (.err .wouldBlock, s)
  | .byte b :: rest => (.ok b, { s with rx := rest })
  | .wouldBlock :: rest => (.err .wouldBlock, { s with rx := rest })
  | .fatal e :: rest => (.err (.other (.UartRead e)), { s with rx := rest })

/-- `Esp32At::putc`: one `tx.write(byte)`, wrapping a fatal cause in
`Error::UartWrite` and passing would-block through.  A successful write
appends the byte to the log. -/
def putc (b : Nat) (s : EspState ρ τ) : Step ρ τ Unit :=
  match s.tx with
  | [] => (.ok (), { s with written := s.written ++ [b] })
  | .accept :: rest => (.ok (), { s with tx := rest, written := s.written ++ [b] })
  | .wouldBlock :: rest => (.err .wouldBlock, { s with tx := rest })
  | .fatal e :: rest => (.err (.other (.UartWrite e)), { s with tx := rest })

/-- Rust's `?` operator on `nb::Result`: run the next step only when the
previous one succeeded, otherwise return its error with the state as the
failing step left it. -/
def bindStep (x : Step ρ τ α) (f : α → EspState ρ τ → Step ρ τ β) : Step ρ τ β :=
  match x with
  | (.ok a, s) => f a s
  | (.err e, s) => (.err e, s)

/-- `Esp32At::write`: write each byte in order via `putc`, stopping at the
first failure. -/
def write : List Nat → EspState ρ τ → Step ρ τ Unit
  | [], s => (.ok (), s)
  | b :: rest, s => bindStep (putc b s) fun _ s1 => write rest s1

/-- `Esp32At::write_command`: `core::fmt` renders the command template into a
byte sequence which the `Writer` wrapper feeds to `putc` one byte at a time,
preserving the first `nb` error (including would-block) via `error_ref`.  Net
effect: write the rendered bytes in order, stopping at the first failure. -/
def write_command (cmd : List Nat) (s : EspState ρ τ) : Step ρ τ Unit :=
  write cmd s

/-- ASCII string literal as the byte list `str::as_bytes` yields. -/
def strBytes (t : String) : List Nat :=
  t.toList.map Char.toNat

/-- `Esp32At::expect`: read one byte per expected byte; on the first byte
that differs from the expected one, fail with `Error::UnexpectedResponse`. -/
def expect : List Nat → EspState ρ τ → Step ρ τ Unit
  | [], s => (.ok (), s)
  | e :: es, s =>
    bindStep (getc s) fun a s1 =>
      if e ≠ a then (.err (.other .UnexpectedResponse), s1)
      else expect es s1

/-- `Esp32At::expect_response`: `expect` on the text's bytes. -/
def expect_response (r : String) (s : EspState ρ τ) : Step ρ τ Unit :=
  expect (strBytes r) s

/-- `Esp32At::expect_ok_response`: expect the literal text `OK` (without a
trailing CRLF). -/
def expect_ok_response (s : EspState ρ τ) : Step ρ τ Unit :=
  expect_response "OK" s

/-- Is `c` a UTF-8 continuation byte (`0x80..=0xBF`)? -/
def utf8IsCont (c : Nat) : Bool :=
  0x80 ≤ c && c < 0xC0

/-- Allowed first continuation byte after a three-byte leader `b`
(`0xE0 => 0xA0..=0xBF`, `0xED => 0x80..=0x9F`, else `0x80..=0xBF`),
as in `core::str`'s UTF-8 validation. -/
def utf8Cont3 (b c : Nat) : Bool :=
  if b = 0xE0 then 0xA0 ≤ c && c < 0xC0
  else if b = 0xED then 0x80 ≤ c && c < 0xA0
  else utf8IsCont c

/-- Allowed first continuation byte after a four-byte leader `b`
(`0xF0 => 0x90..=0xBF`, `0xF4 => 0x80..=0x8F`, else `0x80..=0xBF`). -/
def utf8Cont4 (b c : Nat) : Bool :=
  if b = 0xF0 then 0x90 ≤ c && c < 0xC0
  else if b = 0xF4 then 0x80 ≤ c && c < 0x90
  else utf8IsCont c

/-- `core::str` UTF-8 validation: `none` when the bytes are valid, otherwise
`some i` where `i` is the `valid_up_to` index (start of the first invalid
sequence).  `i` is the index of the head of the list within the original
input. -/
def utf8Validate (l : List Nat) (i : Nat) : Option Nat :=
  match l with
  | [] => none
  | b :: rest =>
    if b < 0x80 then utf8Validate rest (i + 1)
    else if b < 0xC2 then some i
    else if b < 0xE0 then
      match rest with
      | c1 :: rest1 => if utf8IsCont c1 then utf8Validate rest1 (i + 2) else some i
      | [] => some i
    else if b < 0xF0 then
      match rest with
      | c1 :: c2 :: rest2 =>
        if utf8Cont3 b c1 && utf8IsCont c2 then utf8Validate rest2 (i + 3) else some i
      | _ => some i
    else if b < 0xF5 then
      match rest with
      | c1 :: c2 :: c3 :: rest3 =>
        if utf8Cont4 b c1 && utf8IsCont c2 && utf8IsCont c3 then utf8Validate rest3 (i + 4)
        else some i
      | _ => some i
    else some i

/-- `heapless::String::from_utf8` / `core::str::from_utf8`: keep the bytes
when they are valid UTF-8, otherwise report the decoding error. -/
def from_utf8 (l : List Nat) : RustResult (List Nat) Utf8Error :=
  match utf8Validate l 0 with
  | none => .ok l
  | some i => .err ⟨i⟩

/-- The read loop of `Esp32At::read_line`, with `rx.read()` outcomes
consumed from the queue.  `last1` is `last[1]` before the shift (initially
`0`, from `let mut last = [0; 2]`), `acc` the `heapless::Vec` contents, `n`
its capacity.  Each iteration shifts the window to `(last1, c)`, breaks on
`(CR, LF)`, and otherwise pushes the new `last[0]` (the old `last1`),
failing with `Error::BufferOverflow` when the buffer is full.  On break the
accumulated bytes go through `from_utf8`. -/
def read_line_go (n last1 : Nat) (acc : List Nat) :
    List (RxItem ρ) → RustResult (List Nat) (NbError (Error ρ τ)) × List (RxItem ρ)
  | [] => (.err .wouldBlock, [])
  | .wouldBlock :: rest => (.err .wouldBlock, rest)
  | .fatal e :: rest => (.err (.other (.UartRead e)), rest)
  | .byte c :: rest =>
    if last1 = 13 ∧ c = 10 then
      (match from_utf8 acc with
        | .ok v => .ok v
        | .err cause => .err (.other (.Utf8 cause)), rest)
    else if acc.length < n then
      read_line_go n c (acc ++ [last1]) rest
    else
      (.err (.other .BufferOverflow), rest)

/-- `Esp32At::read_line` with a line buffer of capacity `n` (`N = U64`, so
`n = 64`, at every call site). -/
def read_line (n : Nat) (s : EspState ρ τ) : Step ρ τ (List Nat) :=
  let r := read_line_go n 0 [] s.rx
  (r.1, { s with rx := r.2 })

/-- The scan loop of `Esp32At::ignore_line`: same CRLF window as
`read_line_go` but nothing is accumulated. -/
def ignore_line_go (last1 : Nat) :
    List (RxItem ρ) → RustResult Unit (NbError (Error ρ τ)) × List (RxItem ρ)
  | [] => (.err .wouldBlock, [])
  | .wouldBlock :: rest => (.err .wouldBlock, rest)
  | .fatal e :: rest => (.err (.other (.UartRead e)), rest)
  | .byte c :: rest =>
    if last1 = 13 ∧ c = 10 then (.ok (), rest)
    else ignore_line_go c rest

/-- `Esp32At::ignore_line`. -/
def ignore_line (s : EspState ρ τ) : Step ρ τ Unit :=
  let r := ignore_line_go 0 s.rx
  (r.1, { s with rx := r.2 })

/-- `Esp32At::test_startup`: write `AT\r\n`, then expect `OK`. -/
def test_startup (s : EspState ρ τ) : Step ρ τ Unit :=
  bindStep (write_command (strBytes "AT\r\n") s) fun _ s1 =>
    expect_ok_response s1

/-- `Esp32At::restart`: write `AT+RST\r\n`, then expect `OK`. -/
def restart (s : EspState ρ τ) : Step ρ τ Unit :=
  bindStep (write_command (strBytes "AT+RST\r\n") s) fun _ s1 =>
    expect_ok_response s1

/-- `Esp32At::get_module_revision`: write `AT+GMR\r\n`, read three lines,
then expect `OK`. -/
def get_module_revision (s : EspState ρ τ) : Step ρ τ ModuleRevision :=
  bindStep (write_command (strBytes "AT+GMR\r\n") s) fun _ s1 =>
  bindStep (read_line 64 s1) fun at_version s2 =>
  bindStep (read_line 64 s2) fun sdk_version s3 =>
  bindStep (read_line 64 s3) fun compile_time s4 =>
  bindStep (expect_ok_response s4) fun _ s5 =>
    (.ok { at_version := at_version, sdk_version := sdk_version,
           compile_time := compile_time }, s5)

/-- `Esp32At::enter_deep_sleep`: write `AT+GSLP=<ms>\r\n` (decimal `ms`),
skip one line, then expect `OK`. -/
def enter_deep_sleep (ms : Nat) (s : EspState ρ τ) : Step ρ τ Unit :=
  bindStep (write_command (strBytes ("AT+GSLP=" ++ Nat.repr ms ++ "\r\n")) s) fun _ s1 =>
  bindStep (ignore_line s1) fun _ s2 =>
    expect_ok_response s2

/-- `Esp32At::factory_reset`: write `AT+RESTORE\r\n`, then expect `OK`. -/
def factory_reset (s : EspState ρ τ) : Step ρ τ Unit :=
  bindStep (write_command (strBytes "AT+RESTORE\r\n") s) fun _ s1 =>
    expect_ok_response s1

/-- The receive queue holding exactly the bytes `l` (each `read()` yields
the next byte). -/
def byteItems (l : List Nat) : List (RxItem ρ) :=
  l.map .byte

/-- `noBreak p l`: scanning the bytes `l` with predecessor byte `p` never
produces the window `(CR, LF)`, i.e. the line-terminator test of
`read_line`/`ignore_line` fails throughout `l`. -/
def noBreak (p : Nat) : List Nat → Bool
  | [] => true
  | c :: cs => (decide ¬(p = 13 ∧ c = 10)) && noBreak c cs

/-- The value of `last[1]` after the scan loop consumed the bytes `l`
starting from predecessor byte `p`: the last byte of `l`, or `p` when `l`
is empty. -/
def lastByte (p : Nat) : List Nat → Nat
  | [] => p
  | c :: cs => lastByte c cs

/-- The bytes `read_line`'s loop pushes while consuming `l` from
predecessor byte `p` (each consumed byte pushes the previous window byte,
so the pushes lag the stream by one byte). -/
def pushed (p : Nat) : List Nat → List Nat
  | [] => []
  | c :: cs => p :: pushed c cs

end EspAt

namespace EspAt

/-- `serial::BaudRate` (from `src/serial.rs`). -/
inductive BaudRate where
  | Baud110
  | Baud300
  | Baud600
  | Baud1200
  | Baud2400
  | Baud4800
  | Baud9600
  | Baud19200
  | Baud38400
  | Baud57600
  | Baud115200
  | BaudOther (n : Nat)
  deriving DecidableEq

/-- `BaudRate::from_speed`. -/
def BaudRate.from_speed (speed : Nat) : BaudRate :=
  match speed with
  | 110 => .Baud110
  | 300 => .Baud300
  | 600 => .Baud600
  | 1200 => .Baud1200
  | 2400 => .Baud2400
  | 4800 => .Baud4800
  | 9600 => .Baud9600
  | 19200 => .Baud19200
  | 38400 => .Baud38400
  | 57600 => .Baud57600
  | 115200 => .Baud115200
  | n => .BaudOther n

/-- `BaudRate::speed`. -/
def BaudRate.speed : BaudRate → Nat
  | .Baud110 => 110
  | .Baud300 => 300
  | .Baud600 => 600
  | .Baud1200 => 1200
  | .Baud2400 => 2400
  | .Baud4800 => 4800
  | .Baud9600 => 9600
  | .Baud19200 => 19200
  | .Baud38400 => 38400
  | .Baud57600 => 57600
  | .Baud115200 => 115200
  | .BaudOther n => n

/-- The standard-rate variants of `BaudRate` (everything except
`BaudOther`). -/
def BaudRate.isStandard : BaudRate → Bool
  | .BaudOther _ => false
  | _ => true

/-- The integer speeds of the standard `BaudRate` variants. -/
def standardSpeeds : List Nat :=
  [110, 300, 600, 1200, 2400, 4800, 9600, 19200, 38400, 57600, 115200]

/-- One value per public command of the driver (the argument of
`enter_deep_sleep` included), used to quantify over the implemented
commands. -/
inductive OpCall where
  | testStartup
  | restartCall
  | getModuleRevision
  | enterDeepSleep (ms : Nat)
  | factoryReset
  deriving DecidableEq

/-- The command-line bytes each operation writes. -/
def cmdBytes : OpCall → List Nat
  | .testStartup => strBytes "AT\r\n"
  | .restartCall => strBytes "AT+RST\r\n"
  | .getModuleRevision => strBytes "AT+GMR\r\n"
  | .enterDeepSleep ms => strBytes ("AT+GSLP=" ++ Nat.repr ms ++ "\r\n")
  | .factoryReset => strBytes "AT+RESTORE\r\n"

variable {ρ τ : Type}

/-- Run the operation an `OpCall` names (discarding `get_module_revision`'s
payload, so all five have one result type). -/
def runOp : OpCall → EspState ρ τ → Step ρ τ Unit
  | .testStartup, s => test_startup s
  | .restartCall, s => restart s
  | .getModuleRevision, s => bindStep (get_module_revision s) fun _ s1 => (.ok (), s1)
  | .enterDeepSleep ms, s => enter_deep_sleep ms s
  | .factoryReset, s => factory_reset s

end EspAt

namespace EspAt

variable {ρ τ : Type} {α β : Type}

lemma bindStep_ok (a : α) (s : EspState ρ τ) (f : α → EspState ρ τ → Step ρ τ β) :
    bindStep (.ok a, s) f = f a s := rfl

lemma bindStep_err (e : NbError (Error ρ τ)) (s : EspState ρ τ)
    (f : α → EspState ρ τ → Step ρ τ β) :
    bindStep (.err e, s) f = (.err e, s) := rfl

lemma byteItems_append (a b : List Nat) :
    byteItems (ρ := ρ) (a ++ b) = byteItems a ++ byteItems b :=
  List.map_append _ a b

lemma byteItems_cons (c : Nat) (cs : List Nat) :
    byteItems (ρ := ρ) (c :: cs) = .byte c :: byteItems cs := rfl

lemma byteItems_nil : byteItems (ρ := ρ) [] = [] := rfl

lemma strBytes_append (a b : String) : strBytes (a ++ b) = strBytes a ++ strBytes b := by
  simp [strBytes, String.toList]

lemma noBreak_cons (p c : Nat) (cs : List Nat) :
    noBreak p (c :: cs) = true ↔ ¬(p = 13 ∧ c = 10) ∧ noBreak c cs = true := by
  simp only [noBreak, Bool.and_eq_true, decide_eq_true_eq]

lemma noBreak_append (p : Nat) (x y : List Nat) :
    noBreak p (x ++ y) = (noBreak p x && noBreak (lastByte p x) y) := by
  induction x generalizing p with
  | nil => simp [noBreak, lastByte]
  | cons c cs ih => simp [noBreak, lastByte, ih, Bool.and_assoc]

lemma pushed_length (p : Nat) (l : List Nat) : (pushed p l).length = l.length := by
  induction l generalizing p with
  | nil => rfl
  | cons c cs ih => simp [pushed, ih]

lemma pushed_lastByte (p : Nat) (l : List Nat) :
    pushed p l ++ [lastByte p l] = p :: l := by
  induction l generalizing p with
  | nil => rfl
  | cons c cs ih => simp [pushed, lastByte, ih]

lemma write_accepts (data : List Nat) (s : EspState ρ τ) (h : s.tx = []) :
    write data s = (.ok (), { s with written := s.written ++ data }) := by
  induction data generalizing s with
  | nil => simp [write]
  | cons b bs ih =>
    simp only [write, putc, h, bindStep_ok]
    rw [ih _ (by simp [h])]
    simp [h]

lemma write_wb (k : Nat) (data : List Nat) (s : EspState ρ τ) (txrest : List (TxItem τ))
    (hk : k < data.length)
    (h : s.tx = List.replicate k .accept ++ .wouldBlock :: txrest) :
    write data s
      = (.err .wouldBlock, { s with tx := txrest, written := s.written ++ data.take k }) := by
  induction k generalizing data s with
  | zero =>
    cases data with
    | nil => simp at hk
    | cons b bs =>
      simp only [List.replicate, List.nil_append] at h
      simp [write, putc, h, bindStep_err]
  | succ k ih =>
    cases data with
    | nil => simp at hk
    | cons b bs =>
      rw [List.replicate_succ, List.cons_append] at h
      simp only [write, putc, h, bindStep_ok]
      rw [ih bs _ (by simpa using hk) (by simp)]
      simp [h, List.take_succ_cons]

lemma expect_pre_match (pre es : List Nat) (tail : List (RxItem ρ)) (tx : List (TxItem τ))
    (w : List Nat) :
    expect (pre ++ es) ⟨byteItems pre ++ tail, tx, w⟩ = expect es ⟨tail, tx, w⟩ := by
  induction pre with
  | nil => simp [byteItems]
  | cons c cs ih =>
    simp only [List.cons_append, byteItems_cons]
    simp [expect, getc, bindStep_ok, ih]

lemma expect_all (data : List Nat) (tail : List (RxItem ρ)) (tx : List (TxItem τ))
    (w : List Nat) :
    expect data ⟨byteItems data ++ tail, tx, w⟩ = (.ok (), ⟨tail, tx, w⟩) := by
  have h := expect_pre_match data [] tail tx w
  simpa [expect] using h

lemma expect_mismatch (pre : List Nat) (e : Nat) (es : List Nat) (a : Nat)
    (tail : List (RxItem ρ)) (tx : List (TxItem τ)) (w : List Nat) (h : e ≠ a) :
    expect (pre ++ e :: es) ⟨byteItems pre ++ .byte a :: tail, tx, w⟩
      = (.err (.other .UnexpectedResponse), ⟨tail, tx, w⟩) := by
  rw [expect_pre_match]
  simp [expect, getc, bindStep_ok, h]

lemma expect_wb_head (e : Nat) (es : List Nat) (r : List (RxItem ρ)) (tx : List (TxItem τ))
    (w : List Nat) :
    expect (e :: es) ⟨.wouldBlock :: r, tx, w⟩ = (.err .wouldBlock, ⟨r, tx, w⟩) := by
  simp [expect, getc, bindStep_err]

end EspAt

namespace EspAt

variable {ρ τ : Type}
lemma read_line_go_byte (n last1 : Nat) (acc : List Nat) (c : Nat) (rest : List (RxItem ρ)) :
    read_line_go (τ := τ) n last1 acc (.byte c :: rest)
      = if last1 = 13 ∧ c = 10 then
          ((match from_utf8 acc with
            | .ok v => .ok v
            | .err cause => .err (.other (.Utf8 cause))), rest)
        else if acc.length < n then read_line_go n c (acc ++ [last1]) rest
        else (.err (.other .BufferOverflow), rest) := rfl

lemma read_line_go_wbItem (n last1 : Nat) (acc : List Nat) (rest : List (RxItem ρ)) :
    read_line_go (τ := τ) n last1 acc (.wouldBlock :: rest) = (.err .wouldBlock, rest) := rfl

lemma ignore_line_go_byte (p c : Nat) (rest : List (RxItem ρ)) :
    ignore_line_go (τ := τ) p (.byte c :: rest)
      = if p = 13 ∧ c = 10 then (.ok (), rest) else ignore_line_go c rest := rfl

lemma ignore_line_go_wbItem (p : Nat) (rest : List (RxItem ρ)) :
    ignore_line_go (τ := τ) p (.wouldBlock :: rest) = (.err .wouldBlock, rest) := rfl

lemma read_line_go_seg (n p : Nat) (acc seg : List Nat) (rest : List (RxItem ρ))
    (h1 : noBreak p seg = true) (h2 : acc.length + seg.length ≤ n) :
    read_line_go (τ := τ) n p acc (byteItems seg ++ rest)
      = read_line_go n (lastByte p seg) (acc ++ pushed p seg) rest := by
  induction seg generalizing p acc with
  | nil => simp [lastByte, pushed, byteItems]
  | cons c cs ih =>
    rw [noBreak_cons] at h1
    have hlt : acc.length < n := by simp at h2; omega
    have hcap : (acc ++ [p]).length + cs.length ≤ n := by simp at h2 ⊢; omega
    have hstep : read_line_go (τ := τ) n p acc (byteItems (c :: cs) ++ rest)
        = read_line_go n c (acc ++ [p]) (byteItems cs ++ rest) := by
      rw [byteItems_cons, List.cons_append, read_line_go_byte, if_neg h1.1, if_pos hlt]
    rw [hstep, ih c (acc ++ [p]) h1.2 hcap]
    simp [lastByte, pushed]

lemma read_line_go_line (n : Nat) (l : List Nat) (rest : List (RxItem ρ))
    (h1 : noBreak 0 l = true) (h2 : l.length < n) :
    read_line_go (τ := τ) n 0 [] (byteItems (l ++ [13, 10]) ++ rest)
      = ((match from_utf8 (0 :: l) with
          | .ok v => .ok v
          | .err cause => .err (.other (.Utf8 cause))), rest) := by
  calc read_line_go (τ := τ) n 0 [] (byteItems (l ++ [13, 10]) ++ rest)
      = read_line_go n 0 [] (byteItems l ++ (.byte 13 :: .byte 10 :: rest)) := by
        rw [byteItems_append, List.append_assoc]; rfl
    _ = read_line_go n (lastByte 0 l) ([] ++ pushed 0 l) (.byte 13 :: .byte 10 :: rest) :=
        read_line_go_seg n 0 [] l _ h1 (by simp only [List.length_nil]; omega)
    _ = read_line_go n (lastByte 0 l) (pushed 0 l) (.byte 13 :: .byte 10 :: rest) := by
        rw [List.nil_append]
    _ = read_line_go n 13 (pushed 0 l ++ [lastByte 0 l]) (.byte 10 :: rest) := by
        rw [read_line_go_byte, if_neg (by simp), if_pos (by rw [pushed_length]; omega)]
    _ = read_line_go n 13 (0 :: l) (.byte 10 :: rest) := by rw [pushed_lastByte]
    _ = ((match from_utf8 (0 :: l) with
          | .ok v => .ok v
          | .err cause => .err (.other (.Utf8 cause))), rest) := by
        rw [read_line_go_byte, if_pos ⟨rfl, rfl⟩]

lemma read_line_line (n : Nat) (l : List Nat) (tail : List (RxItem ρ))
    (tx : List (TxItem τ)) (w : List Nat)
    (h1 : noBreak 0 l = true) (h2 : l.length < n) :
    read_line n ⟨byteItems (l ++ [13, 10]) ++ tail, tx, w⟩
      = ((match from_utf8 (0 :: l) with
          | .ok v => .ok v
          | .err cause => .err (.other (.Utf8 cause))), ⟨tail, tx, w⟩) := by
  simp [read_line, read_line_go_line n l tail h1 h2]

lemma read_line_ok (n : Nat) (l : List Nat) (tail : List (RxItem ρ))
    (tx : List (TxItem τ)) (w : List Nat)
    (h1 : noBreak 0 l = true) (h2 : l.length < n)
    (h3 : utf8Validate (0 :: l) 0 = none) :
    read_line n ⟨byteItems (l ++ [13, 10]) ++ tail, tx, w⟩
      = (.ok (0 :: l), ⟨tail, tx, w⟩) := by
  rw [read_line_line n l tail tx w h1 h2]
  simp [from_utf8, h3]

lemma split_line_pre (l pre post : List Nat)
    (hsplit : pre ++ post = l ++ [13, 10]) (hpost : post ≠ [])
    (h1 : noBreak 0 l = true) :
    noBreak 0 pre = true ∧ pre.length ≤ l.length + 1 := by
  rcases List.append_eq_append_iff.mp hsplit with ⟨m, hm1, _⟩ | ⟨m, hm1, hm2⟩
  · constructor
    · rw [hm1, noBreak_append, Bool.and_eq_true] at h1
      exact h1.1
    · have : pre.length ≤ l.length := by rw [hm1]; simp
      omega
  · cases m with
    | nil =>
      rw [List.append_nil] at hm1
      subst hm1
      exact ⟨h1, by omega⟩
    | cons x xs =>
      cases xs with
      | nil =>
        simp only [List.cons_append, List.nil_append] at hm2
        obtain ⟨hx1, hx2⟩ := List.cons.inj hm2
        subst hm1
        subst hx1
        constructor
        · rw [noBreak_append, Bool.and_eq_true]
          exact ⟨h1, by simp [noBreak]⟩
        · simp
      | cons y ys =>
        exfalso
        have hplen : 0 < post.length := List.length_pos.mpr hpost
        have hlen := congrArg List.length hm2
        simp only [List.length_cons, List.length_append, List.length_nil] at hlen
        omega

lemma read_line_wb (n : Nat) (l pre post : List Nat) (rxrest : List (RxItem ρ))
    (tx : List (TxItem τ)) (w : List Nat)
    (hsplit : pre ++ post = l ++ [13, 10]) (hpost : post ≠ [])
    (h1 : noBreak 0 l = true) (h2 : l.length < n) :
    read_line n ⟨byteItems pre ++ .wouldBlock :: rxrest, tx, w⟩
      = (.err .wouldBlock, ⟨rxrest, tx, w⟩) := by
  obtain ⟨hnb, hlen⟩ := split_line_pre l pre post hsplit hpost h1
  have hgo : read_line_go (ρ := ρ) (τ := τ) n 0 [] (byteItems pre ++ .wouldBlock :: rxrest)
      = (.err .wouldBlock, rxrest) := by
    rw [read_line_go_seg n 0 [] pre _ hnb (by simp only [List.length_nil]; omega),
      read_line_go_wbItem]
  simp [read_line, hgo]

lemma ignore_line_go_seg (p : Nat) (seg : List Nat) (rest : List (RxItem ρ))
    (h1 : noBreak p seg = true) :
    ignore_line_go (τ := τ) p (byteItems seg ++ rest) = ignore_line_go (lastByte p seg) rest := by
  induction seg generalizing p with
  | nil => simp [lastByte, byteItems]
  | cons c cs ih =>
    rw [noBreak_cons] at h1
    have hstep : ignore_line_go (τ := τ) p (byteItems (c :: cs) ++ rest)
        = ignore_line_go c (byteItems cs ++ rest) := by
      rw [byteItems_cons, List.cons_append, ignore_line_go_byte, if_neg h1.1]
    rw [hstep, ih c h1.2]
    simp [lastByte]

lemma ignore_line_line (l : List Nat) (tail : List (RxItem ρ))
    (tx : List (TxItem τ)) (w : List Nat) (h1 : noBreak 0 l = true) :
    ignore_line ⟨byteItems (l ++ [13, 10]) ++ tail, tx, w⟩ = (.ok (), ⟨tail, tx, w⟩) := by
  have hgo : ignore_line_go (ρ := ρ) (τ := τ) 0 (byteItems (l ++ [13, 10]) ++ tail)
      = (.ok (), tail) := by
    calc ignore_line_go (ρ := ρ) (τ := τ) 0 (byteItems (l ++ [13, 10]) ++ tail)
        = ignore_line_go 0 (byteItems l ++ (.byte 13 :: .byte 10 :: tail)) := by
          rw [byteItems_append, List.append_assoc]; rfl
      _ = ignore_line_go (lastByte 0 l) (.byte 13 :: .byte 10 :: tail) :=
          ignore_line_go_seg 0 l _ h1
      _ = ignore_line_go 13 (.byte 10 :: tail) := by
          rw [ignore_line_go_byte, if_neg (by simp)]
      _ = (.ok (), tail) := by
          rw [ignore_line_go_byte, if_pos ⟨rfl, rfl⟩]
  simp [ignore_line, hgo]

lemma ignore_line_wb (l pre post : List Nat) (rxrest : List (RxItem ρ))
    (tx : List (TxItem τ)) (w : List Nat)
    (hsplit : pre ++ post = l ++ [13, 10]) (hpost : post ≠ [])
    (h1 : noBreak 0 l = true) :
    ignore_line ⟨byteItems pre ++ .wouldBlock :: rxrest, tx, w⟩
      = (.err .wouldBlock, ⟨rxrest, tx, w⟩) := by
  obtain ⟨hnb, _⟩ := split_line_pre l pre post hsplit hpost h1
  have hgo : ignore_line_go (ρ := ρ) (τ := τ) 0 (byteItems pre ++ .wouldBlock :: rxrest)
      = (.err .wouldBlock, rxrest) := by
    rw [ignore_line_go_seg 0 pre _ hnb, ignore_line_go_wbItem]
  simp [ignore_line, hgo]

lemma ignore_line_go_res (p : Nat) (rx : List (RxItem ρ)) :
    (ignore_line_go (τ := τ) p rx).1 = .ok ()
      ∨ (ignore_line_go (τ := τ) p rx).1 = .err .wouldBlock
      ∨ ∃ e, (ignore_line_go (τ := τ) p rx).1 = .err (.other (.UartRead e)) := by
  induction rx generalizing p with
  | nil => simp [ignore_line_go]
  | cons item rest ih =>
    cases item with
    | byte c =>
      by_cases h : p = 13 ∧ c = 10
      · simp [ignore_line_go_byte, if_pos h]
      · simp only [ignore_line_go_byte, if_neg h]
        exact ih c
    | wouldBlock => simp [ignore_line_go_wbItem]
    | fatal e => simp [ignore_line_go]

end EspAt

namespace EspAt

variable {ρ τ : Type}

lemma simple_op_ok (cmd : List Nat) (extra : List (RxItem ρ)) (w : List Nat) :
    bindStep (write_command (τ := τ) cmd ⟨byteItems (strBytes "OK") ++ extra, [], w⟩)
      (fun _ s1 => expect_ok_response s1)
      = (.ok (), ⟨extra, [], w ++ cmd⟩) := by
  unfold write_command
  rw [write_accepts _ _ rfl, bindStep_ok]
  unfold expect_ok_response expect_response
  exact expect_all (strBytes "OK") extra [] (w ++ cmd)

lemma simple_op_wb (cmd pre post : List Nat) (rxrest : List (RxItem ρ)) (w : List Nat)
    (hsplit : pre ++ post = strBytes "OK") (hpost : post ≠ []) :
    bindStep (write_command (τ := τ) cmd ⟨byteItems pre ++ .wouldBlock :: rxrest, [], w⟩)
      (fun _ s1 => expect_ok_response s1)
      = (.err .wouldBlock, ⟨rxrest, [], w ++ cmd⟩) := by
  unfold write_command
  rw [write_accepts _ _ rfl, bindStep_ok]
  unfold expect_ok_response expect_response
  obtain ⟨e, es, rfl⟩ : ∃ e es, post = e :: es := by
    cases post with
    | nil => exact absurd rfl hpost
    | cons e es => exact ⟨e, es, rfl⟩
  rw [← hsplit, expect_pre_match pre (e :: es) _ _ _, expect_wb_head]

lemma runOp_write_wb (o : OpCall) (k : Nat) (txrest : List (TxItem τ))
    (rx : List (RxItem ρ)) (w : List Nat) (hk : k < (cmdBytes o).length) :
    runOp o ⟨rx, List.replicate k .accept ++ .wouldBlock :: txrest, w⟩
      = (.err .wouldBlock, ⟨rx, txrest, w ++ (cmdBytes o).take k⟩) := by
  cases o with
  | testStartup =>
    unfold runOp test_startup write_command
    simp only [cmdBytes] at hk ⊢
    rw [write_wb k _ _ _ hk rfl, bindStep_err]
  | restartCall =>
    unfold runOp restart write_command
    simp only [cmdBytes] at hk ⊢
    rw [write_wb k _ _ _ hk rfl, bindStep_err]
  | getModuleRevision =>
    unfold runOp get_module_revision write_command
    simp only [cmdBytes] at hk ⊢
    rw [write_wb k _ _ _ hk rfl, bindStep_err, bindStep_err]
  | enterDeepSleep ms =>
    unfold runOp enter_deep_sleep write_command
    simp only [cmdBytes] at hk ⊢
    rw [write_wb k _ _ _ hk rfl, bindStep_err]
  | factoryReset =>
    unfold runOp factory_reset write_command
    simp only [cmdBytes] at hk ⊢
    rw [write_wb k _ _ _ hk rfl, bindStep_err]

lemma gmr_ok (l1 l2 l3 : List Nat) (extra : List (RxItem ρ)) (w : List Nat)
    (h1 : noBreak 0 l1 = true) (h2 : l1.length < 64) (h3 : utf8Validate (0 :: l1) 0 = none)
    (h4 : noBreak 0 l2 = true) (h5 : l2.length < 64) (h6 : utf8Validate (0 :: l2) 0 = none)
    (h7 : noBreak 0 l3 = true) (h8 : l3.length < 64) (h9 : utf8Validate (0 :: l3) 0 = none) :
    get_module_revision (τ := τ)
        ⟨byteItems (l1 ++ [13, 10]) ++ (byteItems (l2 ++ [13, 10])
          ++ (byteItems (l3 ++ [13, 10]) ++ (byteItems (strBytes "OK") ++ extra))), [], w⟩
      = (.ok ⟨0 :: l1, 0 :: l2, 0 :: l3⟩, ⟨extra, [], w ++ strBytes "AT+GMR\r\n"⟩) := by
  unfold get_module_revision write_command
  rw [write_accepts _ _ rfl, bindStep_ok]
  rw [read_line_ok 64 l1 _ _ _ h1 h2 h3, bindStep_ok]
  rw [read_line_ok 64 l2 _ _ _ h4 h5 h6, bindStep_ok]
  rw [read_line_ok 64 l3 _ _ _ h7 h8 h9, bindStep_ok]
  unfold expect_ok_response expect_response
  rw [expect_all (strBytes "OK") extra _ _, bindStep_ok]

end EspAt

namespace EspAt

variable {ρ τ : Type}

lemma gmr_wb1 (l1 pre post : List Nat) (rxrest : List (RxItem ρ)) (w : List Nat)
    (hsplit : pre ++ post = l1 ++ [13, 10]) (hpost : post ≠ [])
    (h1 : noBreak 0 l1 = true) (h2 : l1.length < 64) :
    get_module_revision (τ := τ) ⟨byteItems pre ++ .wouldBlock :: rxrest, [], w⟩
      = (.err .wouldBlock, ⟨rxrest, [], w ++ strBytes "AT+GMR\r\n"⟩) := by
  unfold get_module_revision write_command
  rw [write_accepts _ _ rfl, bindStep_ok]
  rw [read_line_wb 64 l1 pre post _ _ _ hsplit hpost h1 h2, bindStep_err]

lemma gmr_wb2 (l1 l2 pre post : List Nat) (rxrest : List (RxItem ρ)) (w : List Nat)
    (h1 : noBreak 0 l1 = true) (h2 : l1.length < 64) (h3 : utf8Validate (0 :: l1) 0 = none)
    (hsplit : pre ++ post = l2 ++ [13, 10]) (hpost : post ≠ [])
    (h4 : noBreak 0 l2 = true) (h5 : l2.length < 64) :
    get_module_revision (τ := τ)
        ⟨byteItems (l1 ++ [13, 10]) ++ (byteItems pre ++ .wouldBlock :: rxrest), [], w⟩
      = (.err .wouldBlock, ⟨rxrest, [], w ++ strBytes "AT+GMR\r\n"⟩) := by
  unfold get_module_revision write_command
  rw [write_accepts _ _ rfl, bindStep_ok]
  rw [read_line_ok 64 l1 _ _ _ h1 h2 h3, bindStep_ok]
  rw [read_line_wb 64 l2 pre post _ _ _ hsplit hpost h4 h5, bindStep_err]

lemma gmr_wb3 (l1 l2 l3 pre post : List Nat) (rxrest : List (RxItem ρ)) (w : List Nat)
    (h1 : noBreak 0 l1 = true) (h2 : l1.length < 64) (h3 : utf8Validate (0 :: l1) 0 = none)
    (h4 : noBreak 0 l2 = true) (h5 : l2.length < 64) (h6 : utf8Validate (0 :: l2) 0 = none)
    (hsplit : pre ++ post = l3 ++ [13, 10]) (hpost : post ≠ [])
    (h7 : noBreak 0 l3 = true) (h8 : l3.length < 64) :
    get_module_revision (τ := τ)
        ⟨byteItems (l1 ++ [13, 10])
          ++ (byteItems (l2 ++ [13, 10]) ++ (byteItems pre ++ .wouldBlock :: rxrest)), [], w⟩
      = (.err .wouldBlock, ⟨rxrest, [], w ++ strBytes "AT+GMR\r\n"⟩) := by
  unfold get_module_revision write_command
  rw [write_accepts _ _ rfl, bindStep_ok]
  rw [read_line_ok 64 l1 _ _ _ h1 h2 h3, bindStep_ok]
  rw [read_line_ok 64 l2 _ _ _ h4 h5 h6, bindStep_ok]
  rw [read_line_wb 64 l3 pre post _ _ _ hsplit hpost h7 h8, bindStep_err]

lemma gmr_wb4 (l1 l2 l3 pre post : List Nat) (rxrest : List (RxItem ρ)) (w : List Nat)
    (h1 : noBreak 0 l1 = true) (h2 : l1.length < 64) (h3 : utf8Validate (0 :: l1) 0 = none)
    (h4 : noBreak 0 l2 = true) (h5 : l2.length < 64) (h6 : utf8Validate (0 :: l2) 0 = none)
    (h7 : noBreak 0 l3 = true) (h8 : l3.length < 64) (h9 : utf8Validate (0 :: l3) 0 = none)
    (hsplit : pre ++ post = strBytes "OK") (hpost : post ≠ []) :
    get_module_revision (τ := τ)
        ⟨byteItems (l1 ++ [13, 10])
          ++ (byteItems (l2 ++ [13, 10])
            ++ (byteItems (l3 ++ [13, 10]) ++ (byteItems pre ++ .wouldBlock :: rxrest))), [], w⟩
      = (.err .wouldBlock, ⟨rxrest, [], w ++ strBytes "AT+GMR\r\n"⟩) := by
  unfold get_module_revision write_command
  rw [write_accepts _ _ rfl, bindStep_ok]
  rw [read_line_ok 64 l1 _ _ _ h1 h2 h3, bindStep_ok]
  rw [read_line_ok 64 l2 _ _ _ h4 h5 h6, bindStep_ok]
  rw [read_line_ok 64 l3 _ _ _ h7 h8 h9, bindStep_ok]
  unfold expect_ok_response expect_response
  obtain ⟨e, es, rfl⟩ : ∃ e es, post = e :: es := by
    cases post with
    | nil => exact absurd rfl hpost
    | cons e es => exact ⟨e, es, rfl⟩
  rw [← hsplit, expect_pre_match pre (e :: es) _ _ _, expect_wb_head, bindStep_err]

lemma gslp_ok (ms : Nat) (skip : List Nat) (extra : List (RxItem ρ)) (w : List Nat)
    (h1 : noBreak 0 skip = true) :
    enter_deep_sleep (τ := τ) ms
        ⟨byteItems (skip ++ [13, 10]) ++ (byteItems (strBytes "OK") ++ extra), [], w⟩
      = (.ok (), ⟨extra, [], w ++ strBytes ("AT+GSLP=" ++ Nat.repr ms ++ "\r\n")⟩) := by
  unfold enter_deep_sleep write_command
  rw [write_accepts _ _ rfl, bindStep_ok]
  rw [ignore_line_line skip _ _ _ h1, bindStep_ok]
  unfold expect_ok_response expect_response
  exact expect_all (strBytes "OK") extra _ _

lemma gslp_wb1 (ms : Nat) (skip pre post : List Nat) (rxrest : List (RxItem ρ)) (w : List Nat)
    (hsplit : pre ++ post = skip ++ [13, 10]) (hpost : post ≠ [])
    (h1 : noBreak 0 skip = true) :
    enter_deep_sleep (τ := τ) ms ⟨byteItems pre ++ .wouldBlock :: rxrest, [], w⟩
      = (.err .wouldBlock, ⟨rxrest, [], w ++ strBytes ("AT+GSLP=" ++ Nat.repr ms ++ "\r\n")⟩) := by
  unfold enter_deep_sleep write_command
  rw [write_accepts _ _ rfl, bindStep_ok]
  rw [ignore_line_wb skip pre post _ _ _ hsplit hpost h1, bindStep_err]

lemma gslp_wb2 (ms : Nat) (skip pre post : List Nat) (rxrest : List (RxItem ρ)) (w : List Nat)
    (h1 : noBreak 0 skip = true)
    (hsplit : pre ++ post = strBytes "OK") (hpost : post ≠ []) :
    enter_deep_sleep (τ := τ) ms
        ⟨byteItems (skip ++ [13, 10]) ++ (byteItems pre ++ .wouldBlock :: rxrest), [], w⟩
      = (.err .wouldBlock, ⟨rxrest, [], w ++ strBytes ("AT+GSLP=" ++ Nat.repr ms ++ "\r\n")⟩) := by
  unfold enter_deep_sleep write_command
  rw [write_accepts _ _ rfl, bindStep_ok]
  rw [ignore_line_line skip _ _ _ h1, bindStep_ok]
  unfold expect_ok_response expect_response
  obtain ⟨e, es, rfl⟩ : ∃ e es, post = e :: es := by
    cases post with
    | nil => exact absurd rfl hpost
    | cons e es => exact ⟨e, es, rfl⟩
  rw [← hsplit, expect_pre_match pre (e :: es) _ _ _, expect_wb_head]

end EspAt

namespace EspAt

/-- C1: with the reply `v1\r\nv2\r\nv3\r\nOK\r\n` fed to the transport after
`AT+GMR`, the operation succeeds, but each returned field carries a NUL byte
(0) prepended to the line content — the first loop iteration of `read_line`
pushes the initial window byte `last[0] = 0` — so the at-version field is
`[0, 118, 49]` (`"\0v1"`), not the claimed `strBytes "v1" = [118, 49]`. -/
theorem claim_gmr_fields_eval :
    get_module_revision (ρ := Unit) (τ := Unit)
        ⟨byteItems (strBytes "v1\r\nv2\r\nv3\r\nOK\r\n"), [], []⟩
      = (.ok ⟨[0, 118, 49], [0, 118, 50], [0, 118, 51]⟩,
          ⟨byteItems (strBytes "\r\n"), [], strBytes "AT+GMR\r\n"⟩)
      ∧ ([0, 118, 49] : List Nat) ≠ strBytes "v1" := by
  exact ⟨by decide, by decide⟩

/-- C3: invoking `test_startup` twice with the read stream `OK\r\nOK\r\n`
does not succeed twice: the first call leaves the first reply's `\r\n`
unread (it expects only the literal `OK`), so the second call reads `\r`
where it expects `O` and fails with `UnexpectedResponse`. -/
theorem claim_test_link_twice_eval :
    (test_startup (ρ := Unit) (τ := Unit)
        ⟨byteItems (strBytes "OK\r\nOK\r\n"), [], []⟩).1 = .ok ()
      ∧ (test_startup (test_startup (ρ := Unit) (τ := Unit)
          ⟨byteItems (strBytes "OK\r\nOK\r\n"), [], []⟩).2).1
        = .err (.other .UnexpectedResponse) := by
  exact ⟨by decide, by decide⟩

/-- C4: when the first `n + 1` received bytes contain no CR-LF window (no
CRLF pair starting within the capacity-`n` buffer's span), `read_line n`
fails with `BufferOverflow` — before any terminator is seen — and returns
nothing but the error. -/
theorem claim_read_line_overflow (ρ τ : Type) (n : Nat) (seg : List Nat) (b : Nat)
    (tail : List (RxItem ρ)) (tx : List (TxItem τ)) (w : List Nat)
    (hlen : seg.length = n) (hnb : noBreak 0 (seg ++ [b]) = true) :
    read_line n ⟨byteItems (seg ++ [b]) ++ tail, tx, w⟩
      = (.err (.other .BufferOverflow), ⟨tail, tx, w⟩) := by
  have hsplit := noBreak_append 0 seg [b]
  rw [hnb] at hsplit
  have hsplit2 := hsplit.symm
  rw [Bool.and_eq_true] at hsplit2
  obtain ⟨hs, hb⟩ := hsplit2
  have hcond : ¬(lastByte 0 seg = 13 ∧ b = 10) := by
    simp [noBreak] at hb
    tauto
  have hcap : ¬((([] : List Nat) ++ pushed 0 seg).length < n) := by
    simp [pushed_length, hlen]
  have hgo : read_line_go (ρ := ρ) (τ := τ) n 0 [] (byteItems (seg ++ [b]) ++ tail)
      = (.err (.other .BufferOverflow), tail) := by
    rw [byteItems_append, List.append_assoc]
    have hb1 : byteItems (ρ := ρ) [b] ++ tail = .byte b :: tail := rfl
    rw [hb1, read_line_go_seg n 0 [] seg _ hs (by simp [hlen])]
    rw [read_line_go_byte, if_neg hcond, if_neg hcap]
  simp [read_line, hgo]

/-- C4 witness: capacity 2, stream `aaa` with no CRLF: buffer overflow. -/
theorem claim_read_line_overflow_witness :
    read_line 2 (⟨byteItems ([97, 97] ++ [97]) ++ [], [], []⟩ : EspState Unit Unit)
      = (.err (.other .BufferOverflow), ⟨[], [], []⟩) :=
  claim_read_line_overflow Unit Unit 2 [97, 97] 97 [] [] [] (by decide) (by decide)

/-- C5: `expect` compares byte by byte; after a prefix that matches, the
first differing byte makes it fail with `UnexpectedResponse`, consuming
exactly the matched prefix plus the one mismatching byte.  In particular
`test_startup` against the reply `ERROR\r\n` fails at the very first byte
(`E` read where `O` was expected), leaving `RROR\r\n` unread. -/
theorem claim_expect_first_mismatch (ρ τ : Type) :
    (∀ (pre : List Nat) (e : Nat) (es : List Nat) (a : Nat) (tail : List (RxItem ρ))
        (tx : List (TxItem τ)) (w : List Nat), e ≠ a →
        expect (pre ++ e :: es) ⟨byteItems pre ++ .byte a :: tail, tx, w⟩
          = (.err (.other .UnexpectedResponse), ⟨tail, tx, w⟩))
      ∧ test_startup (ρ := Unit) (τ := Unit) ⟨byteItems (strBytes "ERROR\r\n"), [], []⟩
          = (.err (.other .UnexpectedResponse),
              ⟨byteItems (strBytes "RROR\r\n"), [], strBytes "AT\r\n"⟩) := by
  exact ⟨fun pre e es a tail tx w h => expect_mismatch pre e es a tail tx w h, by decide⟩

/-- C5 witness: expecting `OK` and reading `E` fails at the first byte. -/
theorem claim_expect_first_mismatch_witness :
    expect ([] ++ 79 :: [75]) (⟨byteItems [] ++ .byte 69 :: [], [], []⟩ : EspState Unit Unit)
      = (.err (.other .UnexpectedResponse), ⟨[], [], []⟩) :=
  (claim_expect_first_mismatch Unit Unit).1 [] 79 [75] 69 [] [] [] (by decide)

/-- C6: `enter_deep_sleep ms` writes exactly `AT+GSLP=` ++ decimal `ms` ++
CRLF before performing any read: with an empty receive queue it writes the
whole command line, then its first read attempt reports would-block with the
receive queue untouched.  For `ms = 1500` the bytes are exactly
`AT+GSLP=1500\r\n`. -/
theorem claim_deep_sleep_writes (ρ τ : Type) (ms : Nat) (w : List Nat) :
    enter_deep_sleep (ρ := ρ) (τ := τ) ms ⟨[], [], w⟩
        = (.err .wouldBlock,
            ⟨[], [], w ++ (strBytes "AT+GSLP=" ++ strBytes (Nat.repr ms) ++ [13, 10])⟩)
      ∧ strBytes "AT+GSLP=" ++ strBytes (Nat.repr 1500) ++ [13, 10]
          = [65, 84, 43, 71, 83, 76, 80, 61, 49, 53, 48, 48, 13, 10] := by
  constructor
  · unfold enter_deep_sleep write_command
    rw [write_accepts _ _ rfl, bindStep_ok]
    simp only [ignore_line, ignore_line_go, bindStep_err]
    rw [strBytes_append, strBytes_append]
    rfl
  · rfl

/-- C7: a line terminated by CRLF within capacity goes through UTF-8
validation of the accumulated bytes (`0 :: line`, with the NUL the loop
prepends): invalid bytes fail with the `Utf8` error carrying the decoding
cause, valid bytes produce no decoding error. -/
theorem claim_read_line_utf8 (ρ τ : Type) (n : Nat) (line : List Nat)
    (tail : List (RxItem ρ)) (tx : List (TxItem τ)) (w : List Nat)
    (hnb : noBreak 0 line = true) (hlen : line.length < n) :
    (∀ cause, from_utf8 (0 :: line) = .err cause →
        read_line n ⟨byteItems (line ++ [13, 10]) ++ tail, tx, w⟩
          = (.err (.other (.Utf8 cause)), ⟨tail, tx, w⟩))
      ∧ ∀ v, from_utf8 (0 :: line) = .ok v →
          read_line n ⟨byteItems (line ++ [13, 10]) ++ tail, tx, w⟩
            = (.ok v, ⟨tail, tx, w⟩) := by
  constructor
  · intro cause hc
    rw [read_line_line n line tail tx w hnb hlen, hc]
  · intro v hv
    rw [read_line_line n line tail tx w hnb hlen, hv]

/-- C7 witness: the invalid byte 0xFF fails with a decoding error at index
1 of the accumulated buffer; the valid line `v1` decodes with no error. -/
theorem claim_read_line_utf8_witness :
    read_line 64 (⟨byteItems ([255] ++ [13, 10]) ++ [], [], []⟩ : EspState Unit Unit)
        = (.err (.other (.Utf8 ⟨1⟩)), ⟨[], [], []⟩)
      ∧ read_line 64 (⟨byteItems ([118, 49] ++ [13, 10]) ++ [], [], []⟩ : EspState Unit Unit)
        = (.ok [0, 118, 49], ⟨[], [], []⟩) := by
  constructor
  · exact (claim_read_line_utf8 Unit Unit 64 [255] [] [] []
      (by decide) (by decide)).1 ⟨1⟩ (by decide)
  · exact (claim_read_line_utf8 Unit Unit 64 [118, 49] [] [] []
      (by decide) (by decide)).2 [0, 118, 49] (by decide)

/-- C9: every standard baud-rate variant round-trips through its integer
speed, and every integer that is no standard speed maps to `BaudOther`
carrying that integer, whose `speed` is the integer itself. -/
theorem claim_baud_round_trip :
    (∀ b : BaudRate, b.isStandard = true → BaudRate.from_speed b.speed = b)
      ∧ ∀ n : Nat, n ∉ standardSpeeds →
          BaudRate.from_speed n = .BaudOther n ∧ (BaudRate.from_speed n).speed = n := by
  constructor
  · intro b hb
    cases b <;> first
      | rfl
      | simp [BaudRate.isStandard] at hb
  · intro n hn
    simp only [standardSpeeds, List.mem_cons, List.not_mem_nil, or_false] at hn
    have hfs : BaudRate.from_speed n = .BaudOther n := by
      unfold BaudRate.from_speed
      split <;> simp_all
    exact ⟨hfs, by rw [hfs]; rfl⟩

/-- C9 witness: 9600 round-trips; 4000000 is a `BaudOther` rate. -/
theorem claim_baud_round_trip_witness :
    BaudRate.from_speed (BaudRate.Baud9600.speed) = .Baud9600
      ∧ BaudRate.from_speed 4000000 = .BaudOther 4000000
      ∧ (BaudRate.from_speed 4000000).speed = 4000000 := by
  refine ⟨claim_baud_round_trip.1 .Baud9600 (by decide), ?_, ?_⟩
  · exact (claim_baud_round_trip.2 4000000 (by decide)).1
  · exact (claim_baud_round_trip.2 4000000 (by decide)).2

/-- C10: `ignore_line` accumulates nothing, so whatever the receive queue
holds its result is success, would-block, or a wrapped transport read
error — never `BufferOverflow` and never a `Utf8` decoding failure. -/
theorem claim_ignore_line_failure_modes (ρ τ : Type) (s : EspState ρ τ) :
    (ignore_line s).1 = .ok ()
      ∨ (ignore_line s).1 = .err .wouldBlock
      ∨ ∃ e, (ignore_line s).1 = .err (.other (.UartRead e)) :=
  ignore_line_go_res 0 s.rx

end EspAt

namespace EspAt

/-- C2 (amended): for every implemented command fed exactly its documented
reply, the operation succeeds and every reply byte is consumed EXCEPT the
status line's trailing `\r\n`: `expect_ok_response` matches only the literal
`OK`, so the two CRLF bytes remain unread in the transport. -/
theorem claim_replies_consumed_amended (ρ τ : Type) :
    (∀ w : List Nat,
        test_startup (ρ := ρ) (τ := τ) ⟨byteItems (strBytes "OK\r\n"), [], w⟩
          = (.ok (), ⟨byteItems (strBytes "\r\n"), [], w ++ strBytes "AT\r\n"⟩))
      ∧ (∀ w : List Nat,
          restart (ρ := ρ) (τ := τ) ⟨byteItems (strBytes "OK\r\n"), [], w⟩
            = (.ok (), ⟨byteItems (strBytes "\r\n"), [], w ++ strBytes "AT+RST\r\n"⟩))
      ∧ (∀ w : List Nat,
          factory_reset (ρ := ρ) (τ := τ) ⟨byteItems (strBytes "OK\r\n"), [], w⟩
            = (.ok (), ⟨byteItems (strBytes "\r\n"), [], w ++ strBytes "AT+RESTORE\r\n"⟩))
      ∧ (∀ l1 l2 l3 w : List Nat,
          noBreak 0 l1 = true → l1.length < 64 → utf8Validate (0 :: l1) 0 = none →
          noBreak 0 l2 = true → l2.length < 64 → utf8Validate (0 :: l2) 0 = none →
          noBreak 0 l3 = true → l3.length < 64 → utf8Validate (0 :: l3) 0 = none →
          get_module_revision (ρ := ρ) (τ := τ)
              ⟨byteItems (l1 ++ [13, 10] ++ (l2 ++ [13, 10] ++ (l3 ++ [13, 10]
                ++ strBytes "OK\r\n"))), [], w⟩
            = (.ok ⟨0 :: l1, 0 :: l2, 0 :: l3⟩,
                ⟨byteItems (strBytes "\r\n"), [], w ++ strBytes "AT+GMR\r\n"⟩))
      ∧ (∀ (ms : Nat) (skip w : List Nat), noBreak 0 skip = true →
          enter_deep_sleep (ρ := ρ) (τ := τ) ms
              ⟨byteItems (skip ++ [13, 10] ++ strBytes "OK\r\n"), [], w⟩
            = (.ok (), ⟨byteItems (strBytes "\r\n"), [],
                w ++ strBytes ("AT+GSLP=" ++ Nat.repr ms ++ "\r\n")⟩)) := by
  have hOK : strBytes "OK\r\n" = strBytes "OK" ++ strBytes "\r\n" := rfl
  refine ⟨fun w => ?_, fun w => ?_, fun w => ?_, ?_, ?_⟩
  · have hrx : byteItems (ρ := ρ) (strBytes "OK\r\n")
        = byteItems (strBytes "OK") ++ byteItems (strBytes "\r\n") := by
      rw [hOK, byteItems_append]
    rw [test_startup, hrx]
    exact simple_op_ok (strBytes "AT\r\n") (byteItems (strBytes "\r\n")) w
  · have hrx : byteItems (ρ := ρ) (strBytes "OK\r\n")
        = byteItems (strBytes "OK") ++ byteItems (strBytes "\r\n") := by
      rw [hOK, byteItems_append]
    rw [restart, hrx]
    exact simple_op_ok (strBytes "AT+RST\r\n") (byteItems (strBytes "\r\n")) w
  · have hrx : byteItems (ρ := ρ) (strBytes "OK\r\n")
        = byteItems (strBytes "OK") ++ byteItems (strBytes "\r\n") := by
      rw [hOK, byteItems_append]
    rw [factory_reset, hrx]
    exact simple_op_ok (strBytes "AT+RESTORE\r\n") (byteItems (strBytes "\r\n")) w
  · intro l1 l2 l3 w h1 h2 h3 h4 h5 h6 h7 h8 h9
    have hrx : byteItems (ρ := ρ)
        (l1 ++ [13, 10] ++ (l2 ++ [13, 10] ++ (l3 ++ [13, 10] ++ strBytes "OK\r\n")))
        = byteItems (l1 ++ [13, 10]) ++ (byteItems (l2 ++ [13, 10])
          ++ (byteItems (l3 ++ [13, 10])
            ++ (byteItems (strBytes "OK") ++ byteItems (strBytes "\r\n")))) := by
      rw [hOK]
      simp [byteItems_append, byteItems_cons, byteItems_nil, List.append_assoc]
    rw [hrx]
    exact gmr_ok l1 l2 l3 (byteItems (strBytes "\r\n")) w h1 h2 h3 h4 h5 h6 h7 h8 h9
  · intro ms skip w h1
    have hrx : byteItems (ρ := ρ) (skip ++ [13, 10] ++ strBytes "OK\r\n")
        = byteItems (skip ++ [13, 10])
          ++ (byteItems (strBytes "OK") ++ byteItems (strBytes "\r\n")) := by
      rw [hOK]
      simp [byteItems_append, byteItems_cons, byteItems_nil, List.append_assoc]
    rw [hrx]
    exact gslp_ok ms skip (byteItems (strBytes "\r\n")) w h1

/-- C2 counterexample: `test_startup` fed exactly `OK\r\n` succeeds but
leaves the two bytes `\r\n` unread — the reply is not fully consumed. -/
theorem claim_replies_consumed_cex :
    (test_startup (ρ := Unit) (τ := Unit)
        ⟨byteItems (strBytes "OK\r\n"), [], []⟩).1 = .ok ()
      ∧ (test_startup (ρ := Unit) (τ := Unit)
          ⟨byteItems (strBytes "OK\r\n"), [], []⟩).2.rx = [.byte 13, .byte 10]
      ∧ (test_startup (ρ := Unit) (τ := Unit)
          ⟨byteItems (strBytes "OK\r\n"), [], []⟩).2.rx ≠ [] := by
  exact ⟨by decide, by decide, by decide⟩

/-- C2 witness: the module-revision exchange at the concrete reply
`v1\r\nv2\r\nv3\r\nOK\r\n`, leaving exactly `\r\n` unread. -/
theorem claim_replies_consumed_witness :
    get_module_revision (ρ := Unit) (τ := Unit)
        ⟨byteItems ([118, 49] ++ [13, 10] ++ ([118, 50] ++ [13, 10] ++ ([118, 51] ++ [13, 10]
          ++ strBytes "OK\r\n"))), [], []⟩
      = (.ok ⟨0 :: [118, 49], 0 :: [118, 50], 0 :: [118, 51]⟩,
          ⟨byteItems (strBytes "\r\n"), [], [] ++ strBytes "AT+GMR\r\n"⟩) :=
  (claim_replies_consumed_amended Unit Unit).2.2.2.1 [118, 49] [118, 50] [118, 51] []
    (by decide) (by decide) (by decide) (by decide) (by decide) (by decide)
    (by decide) (by decide) (by decide)

end EspAt

namespace EspAt

/-- C8: would-block surfaces unchanged.  (1) For every operation, a
would-block from `write_byte` at any byte of the command line makes the
operation return would-block, having written exactly the accepted prefix
and read nothing.  (2)–(8): for every read point of every operation's
(well-formed) reply interaction — any proper prefix of the status line for
the status-only commands, any proper prefix of any of the three revision
lines or of the status line for `get_module_revision`, any proper prefix of
the skipped line or of the status line for `enter_deep_sleep` — a
would-block from `read_byte` at that point makes the operation return
would-block, never some other error variant. -/
theorem claim_would_block_propagates (ρ τ : Type) :
    (∀ (o : OpCall) (k : Nat) (txrest : List (TxItem τ)) (rx : List (RxItem ρ))
        (w : List Nat), k < (cmdBytes o).length →
        runOp o ⟨rx, List.replicate k .accept ++ .wouldBlock :: txrest, w⟩
          = (.err .wouldBlock, ⟨rx, txrest, w ++ (cmdBytes o).take k⟩))
      ∧ (∀ o : OpCall, o = .testStartup ∨ o = .restartCall ∨ o = .factoryReset →
          ∀ (pre post : List Nat) (rxrest : List (RxItem ρ)) (w : List Nat),
            pre ++ post = strBytes "OK" → post ≠ [] →
            runOp (τ := τ) o ⟨byteItems pre ++ .wouldBlock :: rxrest, [], w⟩
              = (.err .wouldBlock, ⟨rxrest, [], w ++ cmdBytes o⟩))
      ∧ (∀ (l1 pre post : List Nat) (rxrest : List (RxItem ρ)) (w : List Nat),
          pre ++ post = l1 ++ [13, 10] → post ≠ [] →
          noBreak 0 l1 = true → l1.length < 64 →
          get_module_revision (τ := τ) ⟨byteItems pre ++ .wouldBlock :: rxrest, [], w⟩
            = (.err .wouldBlock, ⟨rxrest, [], w ++ strBytes "AT+GMR\r\n"⟩))
      ∧ (∀ (l1 l2 pre post : List Nat) (rxrest : List (RxItem ρ)) (w : List Nat),
          noBreak 0 l1 = true → l1.length < 64 → utf8Validate (0 :: l1) 0 = none →
          pre ++ post = l2 ++ [13, 10] → post ≠ [] →
          noBreak 0 l2 = true → l2.length < 64 →
          get_module_revision (τ := τ)
              ⟨byteItems (l1 ++ [13, 10]) ++ (byteItems pre ++ .wouldBlock :: rxrest), [], w⟩
            = (.err .wouldBlock, ⟨rxrest, [], w ++ strBytes "AT+GMR\r\n"⟩))
      ∧ (∀ (l1 l2 l3 pre post : List Nat) (rxrest : List (RxItem ρ)) (w : List Nat),
          noBreak 0 l1 = true → l1.length < 64 → utf8Validate (0 :: l1) 0 = none →
          noBreak 0 l2 = true → l2.length < 64 → utf8Validate (0 :: l2) 0 = none →
          pre ++ post = l3 ++ [13, 10] → post ≠ [] →
          noBreak 0 l3 = true → l3.length < 64 →
          get_module_revision (τ := τ)
              ⟨byteItems (l1 ++ [13, 10]) ++ (byteItems (l2 ++ [13, 10])
                ++ (byteItems pre ++ .wouldBlock :: rxrest)), [], w⟩
            = (.err .wouldBlock, ⟨rxrest, [], w ++ strBytes "AT+GMR\r\n"⟩))
      ∧ (∀ (l1 l2 l3 pre post : List Nat) (rxrest : List (RxItem ρ)) (w : List Nat),
          noBreak 0 l1 = true → l1.length < 64 → utf8Validate (0 :: l1) 0 = none →
          noBreak 0 l2 = true → l2.length < 64 → utf8Validate (0 :: l2) 0 = none →
          noBreak 0 l3 = true → l3.length < 64 → utf8Validate (0 :: l3) 0 = none →
          pre ++ post = strBytes "OK" → post ≠ [] →
          get_module_revision (τ := τ)
              ⟨byteItems (l1 ++ [13, 10]) ++ (byteItems (l2 ++ [13, 10])
                ++ (byteItems (l3 ++ [13, 10]) ++ (byteItems pre ++ .wouldBlock :: rxrest))),
                [], w⟩
            = (.err .wouldBlock, ⟨rxrest, [], w ++ strBytes "AT+GMR\r\n"⟩))
      ∧ (∀ (ms : Nat) (skip pre post : List Nat) (rxrest : List (RxItem ρ)) (w : List Nat),
          pre ++ post = skip ++ [13, 10] → post ≠ [] → noBreak 0 skip = true →
          enter_deep_sleep (τ := τ) ms ⟨byteItems pre ++ .wouldBlock :: rxrest, [], w⟩
            = (.err .wouldBlock,
                ⟨rxrest, [], w ++ strBytes ("AT+GSLP=" ++ Nat.repr ms ++ "\r\n")⟩))
      ∧ (∀ (ms : Nat) (skip pre post : List Nat) (rxrest : List (RxItem ρ)) (w : List Nat),
          noBreak 0 skip = true → pre ++ post = strBytes "OK" → post ≠ [] →
          enter_deep_sleep (τ := τ) ms
              ⟨byteItems (skip ++ [13, 10]) ++ (byteItems pre ++ .wouldBlock :: rxrest), [], w⟩
            = (.err .wouldBlock,
                ⟨rxrest, [], w ++ strBytes ("AT+GSLP=" ++ Nat.repr ms ++ "\r\n")⟩)) := by
  refine ⟨?_, ?_, ?_, ?_, ?_, ?_, ?_, ?_⟩
  · intro o k txrest rx w hk
    exact runOp_write_wb o k txrest rx w hk
  · intro o ho pre post rxrest w hsplit hpost
    rcases ho with rfl | rfl | rfl
    · exact simple_op_wb (strBytes "AT\r\n") pre post rxrest w hsplit hpost
    · exact simple_op_wb (strBytes "AT+RST\r\n") pre post rxrest w hsplit hpost
    · exact simple_op_wb (strBytes "AT+RESTORE\r\n") pre post rxrest w hsplit hpost
  · intro l1 pre post rxrest w hsplit hpost h1 h2
    exact gmr_wb1 l1 pre post rxrest w hsplit hpost h1 h2
  · intro l1 l2 pre post rxrest w h1 h2 h3 hsplit hpost h4 h5
    exact gmr_wb2 l1 l2 pre post rxrest w h1 h2 h3 hsplit hpost h4 h5
  · intro l1 l2 l3 pre post rxrest w h1 h2 h3 h4 h5 h6 hsplit hpost h7 h8
    exact gmr_wb3 l1 l2 l3 pre post rxrest w h1 h2 h3 h4 h5 h6 hsplit hpost h7 h8
  · intro l1 l2 l3 pre post rxrest w h1 h2 h3 h4 h5 h6 h7 h8 h9 hsplit hpost
    exact gmr_wb4 l1 l2 l3 pre post rxrest w h1 h2 h3 h4 h5 h6 h7 h8 h9 hsplit hpost
  · intro ms skip pre post rxrest w hsplit hpost h1
    exact gslp_wb1 ms skip pre post rxrest w hsplit hpost h1
  · intro ms skip pre post rxrest w h1 hsplit hpost
    exact gslp_wb2 ms skip pre post rxrest w h1 hsplit hpost

/-- C8 witness: `test_startup` with the transport yielding `O` and then
would-block returns would-block after writing the full `AT\r\n`. -/
theorem claim_would_block_propagates_witness :
    runOp (ρ := Unit) (τ := Unit) .testStartup
        ⟨byteItems [79] ++ .wouldBlock :: [], [], []⟩
      = (.err .wouldBlock, ⟨[], [], [] ++ cmdBytes .testStartup⟩) :=
  (claim_would_block_propagates Unit Unit).2.1 .testStartup (Or.inl rfl) [79] [75] [] []
    (by decide) (by decide)

end EspAt
